import Mathlib

/-!
Verification of the PriceX retrieval pipeline.

This file shallowly embeds the code of `src/app/api/scrape/route.ts` and the
rate limiter of `src/lib/types.ts` (`rateLimit`) in Lean, and proves or
refutes the specification claims about them.  The network, the DOM and the
CSS-selector engine are the environment: an extractor is modelled as a
function of the list of DOM items the selectors produced, and the fetcher as
a function of an oracle giving each attempt's outcome.
-/

set_option maxHeartbeats 1000000
set_option linter.unusedVariables false

/-- Truthiness of a JavaScript string: `""` is falsy, everything else truthy. -/
def jsTruthyS (s : String) : Bool := s != ""

/-- Truthiness of a JavaScript value that is either `undefined` or a string
(for example the result of cheerio's `.attr(...)`). -/
def jsTruthyO : Option String → Bool
  | none => false
  | some s => s != ""

/-- Template-literal interpolation of a possibly-`undefined` value:
`` `${x}` `` renders `undefined` as the string `"undefined"`. -/
def jsInterpolate : Option String → String
  | none => "undefined"
  | some s => s

/-- Characters matched by the JavaScript `\s` class (the ones relevant here). -/
def isJsSpaceChar (c : Char) : Bool :=
  c = ' ' || c = '\t' || c = '\n' || c = '\r' || c = Char.ofNat 11 || c = Char.ofNat 12

/-- Characters removed by `cleanText`'s regex class.  The class in
route.ts line 89 is mojibake: its literal characters are `â` (U+00E2),
`‚` (U+201A) and `¹` (U+00B9) — the UTF-8 bytes of `₹` double-encoded — so
the program strips those three characters and never strips the rupee sign
`₹` (U+20B9) itself. -/
def isCleanedChar (c : Char) : Bool :=
  isJsSpaceChar c || c = ',' || c = Char.ofNat 0xE2 || c = Char.ofNat 0x201A
    || c = Char.ofNat 0xB9

/-- Models JavaScript's `s.trim()`: strip whitespace from both ends. -/
def jsTrim (s : String) : String :=
  String.mk (((s.toList.dropWhile isJsSpaceChar).reverse.dropWhile isJsSpaceChar).reverse)

/-- Models JavaScript's `s.split(sep)` for a one-character separator. -/
def jsSplitAux (sep : Char) : List Char → List Char → List (List Char)
  | [], acc => [acc.reverse]
  | c :: cs, acc =>
    if c = sep then acc.reverse :: jsSplitAux sep cs []
    else jsSplitAux sep cs (c :: acc)

/-- Models JavaScript's `s.split(sep)` for a one-character separator. -/
def jsSplitChar (s : String) (sep : Char) : List String :=
  (jsSplitAux sep s.toList []).map String.mk

/-- Models `cleanText` from route.ts line 89:
`(text) => text.replace(/[\s,â‚¹]+/g, "").trim()` (the character class is
the committed file's mojibake, see `isCleanedChar`). -/
def cleanText (text : String) : String :=
  jsTrim (String.mk (text.toList.filter (fun c => !isCleanedChar c)))

/-- First match of the regex `\d+\.?\d*` in a character list, if any. -/
def firstNumberAux : List Char → Option String
  | [] => none
  | c :: cs =>
    if c.isDigit then
      let ds := List.takeWhile Char.isDigit (c :: cs)
      match List.dropWhile Char.isDigit (c :: cs) with
      | '.' :: cs2 => some (String.mk (ds ++ '.' :: List.takeWhile Char.isDigit cs2))
      | _ => some (String.mk ds)
    else firstNumberAux cs

/-- Models `getFirstNumber` from route.ts:
`(text) => text.match(/(\d+\.?\d*)/)?.[0] || "0"`. -/
def getFirstNumber (text : String) : String :=
  match firstNumberAux text.toList with
  | some numText => numText
  | none => "0"

/-- Models JavaScript's `s.startsWith(pre)` at character granularity. -/
def jsStartsWith (s pre : String) : Bool :=
  List.isPrefixOf pre.toList s.toList

/-- Models the `Product` interface of `src/lib/types.ts`. -/
structure Product where
  name : String
  price : String
  image : String
  rating : String
  reviews : String
  url : String
  platform : String
deriving Repr, DecidableEq

/-- One Amazon search-result DOM item, as seen through the selectors used by
`fetchAmazonProducts`: each field is the raw text/attribute the corresponding
selector yields (`none` models an absent attribute / `undefined`). -/
structure AmazonItem where
  asin : Option String
  nameText : String
  priceTextRaw : String
  imageSrc : Option String
  ratingText : String
  reviewsText : String
  detailHref : Option String
deriving Repr, DecidableEq

/-- Base URL prefixed to Amazon detail links in route.ts. -/
def amazonBaseUrl : String := "https://www.amazon.in"

/-- Models the body of the `.each` callback of `fetchAmazonProducts`
(route.ts lines 99–123) for a single item: `none` means the item was skipped,
`some p` that `p` was pushed onto `products`. -/
def amazonStep (el : AmazonItem) : Option Product :=
  if !(jsTruthyO el.asin) then none
  else
    let name := jsTrim el.nameText
    let priceText := jsTrim el.priceTextRaw
    let image := el.imageSrc
    let rating := getFirstNumber el.ratingText
    let reviews := if jsTruthyS (jsTrim el.reviewsText) then jsTrim el.reviewsText else "0"
    let url := amazonBaseUrl ++ jsInterpolate el.detailHref
    if jsTruthyS name && jsTruthyS priceText && jsTruthyO image && jsStartsWith url amazonBaseUrl then
      some { name := name, price := cleanText priceText, image := image.getD "",
             rating := rating, reviews := cleanText reviews, url := url, platform := "amazon" }
    else none

/-- One Flipkart search-result DOM item, as seen through the selectors used by
`fetchFlipkartProducts` (route.ts lines 148–169). -/
structure FlipkartItem where
  nameKz : String
  nameWu : String
  priceTextRaw : String
  imageSrc : Option String
  ratingText : String
  reviewsText : String
  hrefCG : Option String
  hrefWu : Option String
deriving Repr, DecidableEq

/-- Base URL prefixed to Flipkart detail links in route.ts. -/
def flipkartBaseUrl : String := "https://www.flipkart.com"

/-- Models the body of the `.each` callback of `fetchFlipkartProducts`
for a single item. -/
def flipkartStep (el : FlipkartItem) : Option Product :=
  let name := if jsTruthyS (jsTrim el.nameKz) then jsTrim el.nameKz else jsTrim el.nameWu
  let priceText := jsTrim el.priceTextRaw
  let rating := getFirstNumber el.ratingText
  let reviews :=
    let w := (jsSplitChar el.reviewsText ' ').headD ""
    if jsTruthyS w then w else "0"
  let urlRelative := if jsTruthyO el.hrefCG then el.hrefCG else el.hrefWu
  if jsTruthyS name && jsTruthyS priceText && jsTruthyO el.imageSrc && jsTruthyO urlRelative then
    some { name := name, price := cleanText priceText, image := el.imageSrc.getD "",
           rating := rating, reviews := cleanText ((jsSplitChar reviews '&').headD ""),
           url := flipkartBaseUrl ++ jsInterpolate urlRelative, platform := "flipkart" }
  else none

/-- Models the capped `.each` traversal shared by both extractors:
the callback first checks `products.length >= 5` and stops (`return false`)
once five products have been collected; otherwise the item is processed and
possibly pushed. -/
def collectProducts (step : α → Option Product) : List α → List Product → List Product
  | [], products => products
  | el :: rest, products =>
    if 5 ≤ products.length then products
    else
      match step el with
      | some p => collectProducts step rest (products ++ [p])
      | none => collectProducts step rest products

/-- Models `fetchAmazonProducts`: the argument is the outcome of
`fetchWithRetry` + cheerio selection (`Except.error` = the fetch threw,
`Except.ok items` = the selected search-result items).  The surrounding
`try/catch` turns any failure into `[]`. -/
def fetchAmazonProducts (fetched : Except String (List AmazonItem)) : List Product :=
  match fetched with
  | Except.error _ => []
  | Except.ok items => collectProducts amazonStep items []

/-- Models `fetchFlipkartProducts`, analogously to `fetchAmazonProducts`. -/
def fetchFlipkartProducts (fetched : Except String (List FlipkartItem)) : List Product :=
  match fetched with
  | Except.error _ => []
  | Except.ok items => collectProducts flipkartStep items []

/-- Result of the `GET` handler of route.ts: HTTP status, the two result
lists in the 200 body, the error/message string of a 400/404 body, and
whether the handler reached the retrieval stage (the `Promise.allSettled`
fan-out) at all. -/
structure GetResult where
  status : Nat
  amazon : List Product
  flipkart : List Product
  error : Option String
  fetched : Bool
deriving Repr, DecidableEq

/-- Models the `GET` handler of route.ts (lines 28–68).  The commented-out
`limiter.check` line is part of the source but is dead, so no rate-limit
check appears here and the handler is stateless.  `query` models
`searchParams.get("q")` (`none` = parameter missing); the two `Except`
arguments model the environments of the two per-source fetches. -/
def GET (query : Option String) (amazonFetch : Except String (List AmazonItem))
    (flipkartFetch : Except String (List FlipkartItem)) : GetResult :=
  if !(jsTruthyO query) then
    { status := 400, amazon := [], flipkart := [],
      error := some "Query parameter is required", fetched := false }
  else
    let amazon := fetchAmazonProducts amazonFetch
    let flipkart := fetchFlipkartProducts flipkartFetch
    if amazon.length = 0 && flipkart.length = 0 then
      { status := 404, amazon := [], flipkart := [],
        error := some "No products found on either platform.", fetched := true }
    else
      { status := 200, amazon := amazon, flipkart := flipkart,
        error := none, fetched := true }

/-- Configuration of `fetchWithRetry`'s routing, from route.ts lines 13–15:
`USE_PROXY = process.env.NODE_ENV === "production"` and
`PROXY_URL = process.env.PROXY_URL` (`none` = unset). -/
structure FetchConfig where
  useProxy : Bool
  proxyUrl : Option String
deriving Repr, DecidableEq

/-- Hexadecimal digit (uppercase), as produced by `encodeURIComponent`. -/
def hexDigitChar (n : Nat) : Char :=
  if n < 10 then Char.ofNat (48 + n) else Char.ofNat (55 + n)

/-- UTF-8 bytes of one character. -/
def utf8Bytes (c : Char) : List Nat :=
  let n := c.toNat
  if n < 0x80 then [n]
  else if n < 0x800 then [0xC0 + n / 0x40, 0x80 + n % 0x40]
  else if n < 0x10000 then [0xE0 + n / 0x1000, 0x80 + n / 0x40 % 0x40, 0x80 + n % 0x40]
  else [0xF0 + n / 0x40000, 0x80 + n / 0x1000 % 0x40, 0x80 + n / 0x40 % 0x40, 0x80 + n % 0x40]

/-- Characters that `encodeURIComponent` leaves unescaped. -/
def isUnreservedURIChar (c : Char) : Bool :=
  c.isAlphanum || c = '-' || c = '_' || c = '.' || c = '!' || c = '~'
    || c = '*' || c = Char.ofNat 39 || c = '(' || c = ')'

/-- Models JavaScript's `encodeURIComponent`. -/
def encodeURIComponent (s : String) : String :=
  String.mk (s.toList.foldl (fun acc c =>
    if isUnreservedURIChar c then acc ++ [c]
    else acc ++ (utf8Bytes c).foldl
      (fun a b => a ++ ['%', hexDigitChar (b / 16), hexDigitChar (b % 16)]) []) [])

/-- URL actually fetched on every attempt of `fetchWithRetry` (route.ts
line 73): `USE_PROXY && PROXY_URL ? `${PROXY_URL}${encodeURIComponent(url)}` : url`. -/
def fetchUrlFor (cfg : FetchConfig) (url : String) : String :=
  if cfg.useProxy && jsTruthyO cfg.proxyUrl then
    cfg.proxyUrl.getD "" ++ encodeURIComponent url
  else url

/-- Outcome of one `fetch(...)` call: a network-level rejection, or a response
with an HTTP status and a body text. -/
inductive FetchOutcome where
  | netError (msg : String)
  | response (status : Nat) (body : String)
deriving Repr, DecidableEq

/-- Models `response.ok`: status in the inclusive range 200–299. -/
def responseOk (status : Nat) : Bool := 200 ≤ status && status ≤ 299

/-- Result of one loop iteration of `fetchWithRetry` before the catch:
the body on success, or the thrown error's message (`HTTP error! ...` for a
non-2xx response, the network message otherwise). -/
def attemptResult : FetchOutcome → String → Except String String
  | FetchOutcome.netError msg, _ => Except.error msg
  | FetchOutcome.response status body, url =>
    if responseOk status then Except.ok body
    else Except.error ("HTTP error! status: " ++ toString status ++ " for " ++ url)

/-- Observable trace of a `fetchWithRetry` run: the returned body or thrown
error, the URL fetched by each attempt in order, and the backoff delays
slept between attempts. -/
structure FetchTrace where
  result : Except String String
  urls : List String
  delays : List Nat
deriving Repr

/-- Loop of `fetchWithRetry` (route.ts lines 71–84): `i` is the current
0-based attempt index and the second argument the number of attempts left
(`retries - i`).  On failure of a non-final attempt the code sleeps
`delay * (i + 1)` and retries; the final attempt rethrows. -/
def fetchGo (cfg : FetchConfig) (oracle : Nat → FetchOutcome) (url : String) (delay : Nat) :
    Nat → Nat → FetchTrace
  | _, 0 => { result := Except.error "Failed to fetch after multiple retries",
              urls := [], delays := [] }
  | i, r + 1 =>
    let fu := fetchUrlFor cfg url
    match attemptResult (oracle i) url with
    | Except.ok body => { result := Except.ok body, urls := [fu], delays := [] }
    | Except.error msg =>
      if r = 0 then { result := Except.error msg, urls := [fu], delays := [] }
      else
        let rest := fetchGo cfg oracle url delay (i + 1) r
        { result := rest.result, urls := fu :: rest.urls,
          delays := delay * (i + 1) :: rest.delays }

/-- Models `fetchWithRetry(url, retries = 2, delay = 1000)`: the `oracle`
gives the outcome of the `fetch` issued by attempt `i`. -/
def fetchWithRetry (cfg : FetchConfig) (oracle : Nat → FetchOutcome) (url : String)
    (retries : Nat := 2) (delay : Nat := 1000) : FetchTrace :=
  fetchGo cfg oracle url delay 0 retries

/-- State of the `tokens` JavaScript `Map` inside `rateLimit`
(src/lib/types.ts): insertion-ordered association list from token to the
recorded timestamps. -/
abbrev LimiterState := List (String × List Int)

/-- Models `tokens.get(token)`. -/
def mapGet (m : LimiterState) (k : String) : Option (List Int) :=
  (m.find? (fun p => p.1 == k)).map Prod.snd

/-- Models `tokens.set(token, v)`: update in place if the key exists
(keeping its position, as a JavaScript `Map` does), else append. -/
def mapSet (m : LimiterState) (k : String) (v : List Int) : LimiterState :=
  if (m.find? (fun p => p.1 == k)).isSome then
    m.map (fun p => if p.1 == k then (k, v) else p)
  else m ++ [(k, v)]

/-- Outcome of one `check` call: `allowed = false` models the thrown
`"Rate limit exceeded"` error (in which case the map is left untouched,
since the throw happens before `tokens.set`). -/
structure CheckResult where
  allowed : Bool
  state : LimiterState
deriving Repr, DecidableEq

/-- Models `rateLimit({interval, uniqueTokenPerInterval}).check(limit, token)`
from src/lib/types.ts, at time `now = Date.now()`, with the closure's `tokens`
map made an explicit argument/result.  `uniqueTokenPerInterval` is taken,
exactly as in the source, but never read. -/
def rateLimitCheck (interval : Int) (uniqueTokenPerInterval : Nat) (st : LimiterState)
    (limit : Nat) (token : String) (now : Int) : CheckResult :=
  let windowStart := now - interval
  let tokenCount := (mapGet st token).getD []
  let validTokens := tokenCount.filter (fun ts => decide (windowStart < ts))
  if limit ≤ validTokens.length then { allowed := false, state := st }
  else { allowed := true, state := mapSet st token (validTokens ++ [now]) }

/-- Runs a sequence of `check` calls for one fixed token at the given times,
threading the map; returns the per-call outcomes and the final map. -/
def runChecks (interval : Int) (u limit : Nat) (token : String) :
    List Int → LimiterState → List Bool × LimiterState
  | [], st => ([], st)
  | t :: ts, st =>
    let r := rateLimitCheck interval u st limit token t
    let rest := runChecks interval u limit token ts r.state
    (r.allowed :: rest.1, rest.2)

/-- Single-window view of one `check` call: the same computation as
`rateLimitCheck` restricted to one token's timestamp list. -/
def checkOnce (interval : Int) (limit : Nat) (w : List Int) (now : Int) : Bool × List Int :=
  let valid := w.filter (fun ts => decide (now - interval < ts))
  if limit ≤ valid.length then (false, w)
  else (true, valid ++ [now])

/-- Single-window view of a sequence of `check` calls. -/
def runWindow (interval : Int) (limit : Nat) : List Int → List Int → List Bool × List Int
  | [], w => ([], w)
  | t :: ts, w =>
    let r := checkOnce interval limit w t
    let rest := runWindow interval limit ts r.2
    (r.1 :: rest.1, rest.2)

/-- Flipkart fixture whose raw price text is the single character `,`:
non-empty (so it passes the emission guard) but consisting only of characters
that `cleanText` strips. -/
def flipkartCommaPriceItem : FlipkartItem :=
  { nameKz := "Acme Phone", nameWu := "", priceTextRaw := ",",
    imageSrc := some "https://img.example/acme.png", ratingText := "4.3",
    reviewsText := "120 Ratings & 30 Reviews",
    hrefCG := some "/acme-phone/p/itm123", hrefWu := none }

/-- Flipkart fixture whose raw price text is the single rupee sign `₹`
(U+20B9) — a character the mojibake regex class of `cleanText` does NOT
strip. -/
def flipkartRupeeOnlyItem : FlipkartItem :=
  { nameKz := "Acme Cable", nameWu := "", priceTextRaw := "₹",
    imageSrc := some "https://img.example/cable.png", ratingText := "4.0",
    reviewsText := "10 Ratings & 2 Reviews",
    hrefCG := some "/acme-cable/p/itm789", hrefWu := none }

/-- Flipkart fixture with a well-formed price. -/
def flipkartGoodItem : FlipkartItem :=
  { nameKz := "Acme Phone 5G", nameWu := "", priceTextRaw := "₹12,999",
    imageSrc := some "https://img.example/acme5g.png", ratingText := "4.4",
    reviewsText := "1,234 Ratings & 210 Reviews",
    hrefCG := some "/acme-phone-5g/p/itm456", hrefWu := none }

/-- Amazon fixture whose detail-link anchor has no `href` attribute. -/
def amazonNoHrefItem : AmazonItem :=
  { asin := some "B0TEST1234", nameText := "Acme Widget", priceTextRaw := "1,299",
    imageSrc := some "https://img.example/widget.jpg",
    ratingText := "4.1 out of 5 stars", reviewsText := "2,345", detailHref := none }

/-- Product record that `amazonStep` emits for `amazonNoHrefItem`. -/
def amazonNoHrefProduct : Product :=
  { name := "Acme Widget", price := "1299", image := "https://img.example/widget.jpg",
    rating := "4.1", reviews := "2345",
    url := "https://www.amazon.inundefined", platform := "amazon" }

/-- The 400 response of the handler (empty/missing query). -/
def validationErrorResult : GetResult :=
  { status := 400, amazon := [], flipkart := [],
    error := some "Query parameter is required", fetched := false }

/-- The 404 response of the handler (no products on either platform). -/
def notFoundResult : GetResult :=
  { status := 404, amazon := [], flipkart := [],
    error := some "No products found on either platform.", fetched := true }

/-- The 200 response of the handler. -/
def okResult (amazon flipkart : List Product) : GetResult :=
  { status := 200, amazon := amazon, flipkart := flipkart,
    error := none, fetched := true }

/-- Development configuration: `NODE_ENV ≠ "production"`, so `USE_PROXY` is
false (route.ts line 15); `PROXY_URL` unset. -/
def devConfig : FetchConfig := { useProxy := false, proxyUrl := none }

/-- Production configuration with a proxy endpoint configured:
`USE_PROXY` true and `PROXY_URL` set. -/
def prodConfig : FetchConfig :=
  { useProxy := true, proxyUrl := some "https://proxy.example.com/?url=" }

/-- The Amazon search URL built for the query `laptop`. -/
def amazonSearchUrlLaptop : String := "https://www.amazon.in/s?k=laptop"

/-- The URL every attempt fetches under `prodConfig`. -/
def proxiedSearchUrl : String := fetchUrlFor prodConfig amazonSearchUrlLaptop

/-- A string with a non-empty left part of an append is itself non-empty. -/
theorem append_ne_empty (a b : String) (ha : a ≠ "") : a ++ b ≠ "" := by
  intro h
  apply ha
  have hd : a.data ++ b.data = [] := by
    rw [← String.data_append]
    exact String.ext_iff.mp h
  exact String.ext (List.append_eq_nil.mp hd).1

/-- A list is a prefix (in the executable sense) of itself followed by anything. -/
theorem isPrefixOf_append_self (l₁ l₂ : List Char) : List.isPrefixOf l₁ (l₁ ++ l₂) = true := by
  induction l₁ with
  | nil => cases l₂ <;> rfl
  | cons c t ih => simp [List.isPrefixOf, ih]

/-- JavaScript's `startsWith` is always true on a string built by prefixing. -/
theorem jsStartsWith_append (pre s : String) : jsStartsWith (pre ++ s) pre = true := by
  unfold jsStartsWith
  simp only [String.toList]
  rw [String.data_append]
  exact isPrefixOf_append_self _ _

/-- A truthy optional string is a non-empty string. -/
theorem jsTruthyO_getD_ne (o : Option String) (h : jsTruthyO o = true) : o.getD "" ≠ "" := by
  cases o with
  | none => simp [jsTruthyO] at h
  | some s => simpa [jsTruthyO, bne_iff_ne] using h

/-- A truthy string is non-empty. -/
theorem jsTruthyS_ne (s : String) (h : jsTruthyS s = true) : s ≠ "" := by
  simpa [jsTruthyS, bne_iff_ne] using h

/-- Every product pushed by the Amazon per-item callback has non-empty
name, image and url. -/
theorem amazonStep_fields (el : AmazonItem) (p : Product)
    (h : amazonStep el = some p) : p.name ≠ "" ∧ p.image ≠ "" ∧ p.url ≠ "" := by
  by_cases ha : jsTruthyO el.asin = true
  · simp only [amazonStep, ha, Bool.not_true, Bool.false_eq_true, if_false,
      Option.ite_none_right_eq_some, Bool.and_eq_true] at h
    obtain ⟨⟨⟨⟨hname, _⟩, himg⟩, _⟩, heq⟩ := h
    injection heq with heq
    subst heq
    exact ⟨jsTruthyS_ne _ hname, jsTruthyO_getD_ne _ himg,
      append_ne_empty _ _ (by decide)⟩
  · rw [Bool.not_eq_true] at ha
    simp [amazonStep, ha] at h

/-- Every product pushed by the Flipkart per-item callback has non-empty
name, image and url. -/
theorem flipkartStep_fields (el : FlipkartItem) (p : Product)
    (h : flipkartStep el = some p) : p.name ≠ "" ∧ p.image ≠ "" ∧ p.url ≠ "" := by
  simp only [flipkartStep, Option.ite_none_right_eq_some, Bool.and_eq_true] at h
  obtain ⟨⟨⟨⟨hname, _⟩, himg⟩, _⟩, heq⟩ := h
  injection heq with heq
  subst heq
  exact ⟨jsTruthyS_ne _ hname, jsTruthyO_getD_ne _ himg,
    append_ne_empty _ _ (by decide)⟩

/-- The capped traversal never grows the product list beyond five. -/
theorem collectProducts_length_le {α : Type} (step : α → Option Product)
    (items : List α) (acc : List Product) (hacc : acc.length ≤ 5) :
    (collectProducts step items acc).length ≤ 5 := by
  induction items generalizing acc with
  | nil => simpa [collectProducts] using hacc
  | cons el rest ih =>
    simp only [collectProducts]
    split
    · exact hacc
    · rename_i h5
      split
      · apply ih
        simp only [List.length_append, List.length_singleton]
        omega
      · exact ih acc hacc

/-- Any property of the products pushed by `step` that also holds on the
accumulator holds of everything the capped traversal returns. -/
theorem collectProducts_mem {α : Type} (step : α → Option Product) (P : Product → Prop)
    (hstep : ∀ el p, step el = some p → P p) (items : List α) (acc : List Product)
    (hacc : ∀ q ∈ acc, P q) : ∀ q ∈ collectProducts step items acc, P q := by
  induction items generalizing acc with
  | nil =>
    intro q hq
    simp only [collectProducts] at hq
    exact hacc q hq
  | cons el rest ih =>
    intro q hq
    simp only [collectProducts] at hq
    by_cases h5 : 5 ≤ acc.length
    · rw [if_pos h5] at hq
      exact hacc q hq
    · rw [if_neg h5] at hq
      cases hel : step el with
      | some p =>
        rw [hel] at hq
        refine ih (acc ++ [p]) ?_ q hq
        intro r hr
        rcases List.mem_append.mp hr with h | h
        · exact hacc r h
        · rw [List.mem_singleton.mp h]
          exact hstep el p hel
      | none =>
        rw [hel] at hq
        exact ih acc hacc q hq

/-- Emission characterization of the Amazon per-item callback: because the
URL guard is vacuous, an item is emitted exactly when its asin, trimmed name,
trimmed price text and image src are truthy. -/
theorem amazonStep_isSome (el : AmazonItem) :
    (amazonStep el).isSome = (jsTruthyO el.asin && jsTruthyS (jsTrim el.nameText)
      && jsTruthyS (jsTrim el.priceTextRaw) && jsTruthyO el.imageSrc) := by
  simp only [amazonStep, jsStartsWith_append, Bool.and_true]
  generalize jsTruthyO el.asin = a
  generalize jsTruthyS (jsTrim el.nameText) = b
  generalize jsTruthyS (jsTrim el.priceTextRaw) = c
  generalize jsTruthyO el.imageSrc = d
  cases a <;> cases b <;> cases c <;> cases d <;> simp

/-- C9: the Amazon emitted-record guard's URL condition is vacuous.  The URL
is built by prefixing `"https://www.amazon.in"` to the (possibly absent)
detail-link href, so `url.startsWith("https://www.amazon.in")` is always
true; the guard is therefore equivalent to requiring only truthy (non-empty)
name, price text and image (together with the earlier asin skip); and an item
whose detail link is missing is still emitted, with URL
`"https://www.amazon.inundefined"`. -/
theorem amazon_url_guard_vacuous :
    (∀ el : AmazonItem,
      jsStartsWith (amazonBaseUrl ++ jsInterpolate el.detailHref) amazonBaseUrl = true)
    ∧ (∀ el : AmazonItem, (amazonStep el).isSome = (jsTruthyO el.asin
        && jsTruthyS (jsTrim el.nameText) && jsTruthyS (jsTrim el.priceTextRaw)
        && jsTruthyO el.imageSrc))
    ∧ amazonStep amazonNoHrefItem = some amazonNoHrefProduct :=
  ⟨fun _ => jsStartsWith_append _ _, fun el => amazonStep_isSome el, by decide⟩

/-- C3 counterexample: a Flipkart item whose raw price text is `","` passes
the emission guard (the raw text is non-empty) but is emitted with an empty
`price` field, because the emitted price is `cleanText(priceText)` and the
comma is stripped.  By contrast, a raw price text of `"₹"` is emitted as
`"₹"` — non-empty — because the committed regex class is mojibake and never
strips the rupee sign itself. -/
theorem flipkart_emits_record_with_empty_price :
    fetchFlipkartProducts (Except.ok [flipkartCommaPriceItem])
      = [{ name := "Acme Phone", price := "", image := "https://img.example/acme.png",
           rating := "4.3", reviews := "120",
           url := "https://www.flipkart.com/acme-phone/p/itm123", platform := "flipkart" }]
    ∧ (fetchFlipkartProducts (Except.ok [flipkartCommaPriceItem])).all
        (fun p => p.price != "") = false
    ∧ (fetchFlipkartProducts (Except.ok [flipkartRupeeOnlyItem])).map Product.price = ["₹"]
    ∧ cleanText "," = "" ∧ cleanText "₹" = "₹" :=
  ⟨by decide, by decide, by decide, by decide, by decide⟩

/-- C3 amended: every record emitted by either extractor has non-empty name,
image and URL (the guards check these, and the URL is built from a non-empty
base); the raw price text is also checked non-empty, but the *emitted* price
is the cleaned text, which can be empty — for example when the raw price
text is `","`.  (The cleaning strips whitespace, commas and the mojibake
characters of the corrupted regex class, not the rupee sign itself.) -/
theorem emitted_records_have_nonempty_name_image_url
    (fa : Except String (List AmazonItem)) (ff : Except String (List FlipkartItem)) :
    (∀ p ∈ fetchAmazonProducts fa, p.name ≠ "" ∧ p.image ≠ "" ∧ p.url ≠ "")
    ∧ (∀ p ∈ fetchFlipkartProducts ff, p.name ≠ "" ∧ p.image ≠ "" ∧ p.url ≠ "") := by
  constructor
  · cases fa with
    | error e =>
      intro p hp
      simp [fetchAmazonProducts] at hp
    | ok items =>
      exact collectProducts_mem amazonStep _ amazonStep_fields items [] (by simp)
  · cases ff with
    | error e =>
      intro p hp
      simp [fetchFlipkartProducts] at hp
    | ok items =>
      exact collectProducts_mem flipkartStep _ flipkartStep_fields items [] (by simp)

/-- Witness for the amended C3 theorem at a concrete input. -/
theorem emitted_records_have_nonempty_name_image_url_witness :
    amazonNoHrefProduct.name ≠ "" ∧ amazonNoHrefProduct.image ≠ ""
      ∧ amazonNoHrefProduct.url ≠ "" :=
  (emitted_records_have_nonempty_name_image_url (Except.ok [amazonNoHrefItem])
      (Except.ok [flipkartGoodItem])).1 amazonNoHrefProduct (by decide)

/-- C7: both extractors stop the traversal once five products are collected,
so every per-source result sequence has length at most 5. -/
theorem extractor_results_capped_at_five (fa : Except String (List AmazonItem))
    (ff : Except String (List FlipkartItem)) :
    (fetchAmazonProducts fa).length ≤ 5 ∧ (fetchFlipkartProducts ff).length ≤ 5 := by
  constructor
  · cases fa with
    | error e => simp [fetchAmazonProducts]
    | ok items => exact collectProducts_length_le amazonStep items [] (by simp)
  · cases ff with
    | error e => simp [fetchFlipkartProducts]
    | ok items => exact collectProducts_length_le flipkartStep items [] (by simp)

/-- C8: a missing or empty `q` parameter is rejected with HTTP 400 before any
retrieval work: the response is the validation error and the handler never
reaches the per-source fetches (`fetched = false`). -/
theorem empty_query_rejected_before_any_work (fa : Except String (List AmazonItem))
    (ff : Except String (List FlipkartItem)) :
    GET none fa ff = validationErrorResult ∧ GET (some "") fa ff = validationErrorResult
    ∧ validationErrorResult.status = 400 ∧ validationErrorResult.fetched = false :=
  ⟨rfl, rfl, rfl, rfl⟩

/-- For a truthy query the handler always proceeds to retrieval and answers
404 on no products, 200 otherwise. -/
theorem GET_truthy (q : Option String) (hq : jsTruthyO q = true)
    (fa : Except String (List AmazonItem)) (ff : Except String (List FlipkartItem)) :
    GET q fa ff =
      if (fetchAmazonProducts fa).length = 0 && (fetchFlipkartProducts ff).length = 0 then
        notFoundResult
      else okResult (fetchAmazonProducts fa) (fetchFlipkartProducts ff) := by
  simp only [GET, hq, Bool.not_true, Bool.false_eq_true, if_false, notFoundResult, okResult]

/-- C2 counterexample: six submissions of the same query within one window
(the limiter's window is 60 s for 5 admissions) all answer HTTP 200 — the 6th
is not rejected with 429, because the `limiter.check` call in the handler is
commented out. -/
theorem sixth_submission_not_rate_limited :
    ((List.replicate 6 (GET (some "laptop") (Except.ok [amazonNoHrefItem])
        (Except.ok [flipkartGoodItem]))).map GetResult.status = List.replicate 6 200)
    ∧ ((List.replicate 6 (GET (some "laptop") (Except.ok [amazonNoHrefItem])
        (Except.ok [flipkartGoodItem]))).map GetResult.status).all (fun s => s != 429) = true :=
  ⟨by decide, by decide⟩

/-- C2 amended: no submission is ever rate-limited.  The handler's only
statuses are 400, 404 and 200 — never 429 — and every truthy query proceeds
to retrieval. -/
theorem submissions_never_rate_limited (query : Option String)
    (fa : Except String (List AmazonItem)) (ff : Except String (List FlipkartItem)) :
    (GET query fa ff).status ≠ 429
    ∧ ((GET query fa ff).status = 400 ∨ (GET query fa ff).status = 404
        ∨ (GET query fa ff).status = 200)
    ∧ (jsTruthyO query = true → (GET query fa ff).fetched = true) := by
  by_cases hq : jsTruthyO query = true
  · rw [GET_truthy query hq fa ff]
    split
    · exact ⟨by simp [notFoundResult], Or.inr (Or.inl rfl), fun _ => rfl⟩
    · exact ⟨by simp [okResult], Or.inr (Or.inr rfl), fun _ => rfl⟩
  · rw [Bool.not_eq_true] at hq
    have h400 : GET query fa ff = validationErrorResult := by
      simp [GET, hq, validationErrorResult]
    rw [h400]
    exact ⟨by simp [validationErrorResult], Or.inl rfl,
      fun ht => absurd ht (by simp [hq])⟩

/-- Witness for the amended C2 theorem at a concrete input. -/
theorem submissions_never_rate_limited_witness :
    (GET (some "laptop") (Except.ok [amazonNoHrefItem])
        (Except.ok [flipkartGoodItem])).fetched = true :=
  (submissions_never_rate_limited (some "laptop") (Except.ok [amazonNoHrefItem])
      (Except.ok [flipkartGoodItem])).2.2 (by decide)

/-- C5: when one source's fetch fails and the other succeeds, the failed
source contributes `[]`, the surviving source's results are returned intact,
the response is never a hard failure (500), and it is 200 whenever the
surviving source produced any record. -/
theorem single_source_failure_never_propagated (q : String) (hq : q ≠ "")
    (e1 e2 : String) (ai : List AmazonItem) (fi : List FlipkartItem) :
    ((GET (some q) (Except.error e1) (Except.ok fi)).amazon = []
      ∧ (GET (some q) (Except.error e1) (Except.ok fi)).status ≠ 500
      ∧ (GET (some q) (Except.error e1) (Except.ok fi)).flipkart
          = fetchFlipkartProducts (Except.ok fi)
      ∧ (fetchFlipkartProducts (Except.ok fi) ≠ [] →
          (GET (some q) (Except.error e1) (Except.ok fi)).status = 200))
    ∧ ((GET (some q) (Except.ok ai) (Except.error e2)).flipkart = []
      ∧ (GET (some q) (Except.ok ai) (Except.error e2)).status ≠ 500
      ∧ (GET (some q) (Except.ok ai) (Except.error e2)).amazon
          = fetchAmazonProducts (Except.ok ai)
      ∧ (fetchAmazonProducts (Except.ok ai) ≠ [] →
          (GET (some q) (Except.ok ai) (Except.error e2)).status = 200)) := by
  have hq' : jsTruthyO (some q) = true := by simpa [jsTruthyO, bne_iff_ne] using hq
  constructor
  · rw [GET_truthy (some q) hq' (Except.error e1) (Except.ok fi)]
    split
    · rename_i hc
      simp only [Bool.and_eq_true, decide_eq_true_eq] at hc
      have hfk : fetchFlipkartProducts (Except.ok fi) = [] :=
        List.length_eq_zero.mp hc.2
      exact ⟨rfl, by simp [notFoundResult], hfk.symm, fun hne => absurd hfk hne⟩
    · exact ⟨rfl, by simp [okResult], rfl, fun _ => rfl⟩
  · rw [GET_truthy (some q) hq' (Except.ok ai) (Except.error e2)]
    split
    · rename_i hc
      simp only [Bool.and_eq_true, decide_eq_true_eq] at hc
      have ham : fetchAmazonProducts (Except.ok ai) = [] :=
        List.length_eq_zero.mp hc.1
      exact ⟨rfl, by simp [notFoundResult], ham.symm, fun hne => absurd ham hne⟩
    · exact ⟨rfl, by simp [okResult], rfl, fun _ => rfl⟩

/-- Witness for the C5 theorem at a concrete input. -/
theorem single_source_failure_never_propagated_witness :
    (GET (some "laptop") (Except.error "ECONNRESET")
        (Except.ok [flipkartGoodItem])).amazon = []
    ∧ (GET (some "laptop") (Except.error "ECONNRESET")
        (Except.ok [flipkartGoodItem])).status = 200 :=
  ⟨(single_source_failure_never_propagated "laptop" (by decide) "ECONNRESET" "x" []
      [flipkartGoodItem]).1.1,
   (single_source_failure_never_propagated "laptop" (by decide) "ECONNRESET" "x" []
      [flipkartGoodItem]).1.2.2.2 (by decide)⟩

/-- Traces of `fetchWithRetry` depend on the per-attempt outcomes only
through success/failure and the successful body: two oracles whose attempts
succeed and fail identically produce the same attempt URLs, the same backoff
delays and the same returned value. -/
theorem fetchGo_congr (cfg : FetchConfig) (o1 o2 : Nat → FetchOutcome) (url : String)
    (delay : Nat)
    (hsame : ∀ i, (attemptResult (o1 i) url).toOption = (attemptResult (o2 i) url).toOption) :
    ∀ r i, (fetchGo cfg o1 url delay i r).urls = (fetchGo cfg o2 url delay i r).urls
      ∧ (fetchGo cfg o1 url delay i r).delays = (fetchGo cfg o2 url delay i r).delays
      ∧ (fetchGo cfg o1 url delay i r).result.toOption
          = (fetchGo cfg o2 url delay i r).result.toOption := by
  intro r
  induction r with
  | zero => exact fun i => ⟨rfl, rfl, rfl⟩
  | succ r ih =>
    intro i
    have hs := hsame i
    cases h1 : attemptResult (o1 i) url with
    | ok b1 =>
      rw [h1] at hs
      cases h2 : attemptResult (o2 i) url with
      | ok b2 =>
        rw [h2] at hs
        simp only [Except.toOption, Option.some.injEq] at hs
        subst hs
        simp [fetchGo, h1, h2]
      | error m2 => rw [h2] at hs; simp [Except.toOption] at hs
    | error m1 =>
      rw [h1] at hs
      cases h2 : attemptResult (o2 i) url with
      | ok b2 => rw [h2] at hs; simp [Except.toOption] at hs
      | error m2 =>
        by_cases hr : r = 0
        · subst hr; simp [fetchGo, h1, h2, Except.toOption]
        · obtain ⟨hu, hd, hres⟩ := ih (i + 1)
          simp [fetchGo, h1, h2, hr, hu, hd, hres]

/-- The backoff delays of a `fetchGo` run from attempt index `i` are an
initial run of the arithmetic sequence `delay * (i+1), delay * (i+2), …`. -/
theorem fetchGo_delays_shape (cfg : FetchConfig) (o : Nat → FetchOutcome) (url : String)
    (delay : Nat) :
    ∀ r i, ∃ n, (fetchGo cfg o url delay i r).delays
      = (List.range' (i + 1) n).map (fun a => delay * a) := by
  intro r
  induction r with
  | zero => exact fun i => ⟨0, rfl⟩
  | succ r ih =>
    intro i
    cases ho : attemptResult (o i) url with
    | ok b => exact ⟨0, by simp [fetchGo, ho]⟩
    | error m =>
      by_cases hr : r = 0
      · subst hr; exact ⟨0, by simp [fetchGo, ho]⟩
      · obtain ⟨n, hn⟩ := ih (i + 1)
        refine ⟨n + 1, ?_⟩
        simp [fetchGo, ho, hr, hn, List.range'_succ]

/-- Attempt-count bound: `fetchGo` never issues more fetches than it has
attempts left. -/
theorem fetchGo_urls_le (cfg : FetchConfig) (o : Nat → FetchOutcome) (url : String)
    (delay : Nat) : ∀ r i, (fetchGo cfg o url delay i r).urls.length ≤ r := by
  intro r
  induction r with
  | zero => exact fun i => by simp [fetchGo]
  | succ r ih =>
    intro i
    cases ho : attemptResult (o i) url with
    | ok b => simp [fetchGo, ho]
    | error m =>
      by_cases hr : r = 0
      · subst hr; simp [fetchGo, ho]
      · have := ih (i + 1)
        simp [fetchGo, ho, hr]
        omega

/-- The delay list is strictly shorter than the attempt budget (or empty). -/
theorem fetchGo_delays_lt (cfg : FetchConfig) (o : Nat → FetchOutcome) (url : String)
    (delay : Nat) :
    ∀ r i, (fetchGo cfg o url delay i r).delays.length < r
      ∨ (fetchGo cfg o url delay i r).delays = [] := by
  intro r
  induction r with
  | zero => exact fun i => Or.inr rfl
  | succ r ih =>
    intro i
    cases ho : attemptResult (o i) url with
    | ok b => exact Or.inr (by simp [fetchGo, ho])
    | error m =>
      by_cases hr : r = 0
      · subst hr; exact Or.inr (by simp [fetchGo, ho])
      · left
        rcases ih (i + 1) with h | h
        · simp [fetchGo, ho, hr]
          omega
        · simp [fetchGo, ho, hr, h]
          omega

/-- A failed `fetchWithRetry` run performed every one of its attempts. -/
theorem fetchGo_error_urls (cfg : FetchConfig) (o : Nat → FetchOutcome) (url : String)
    (delay : Nat) :
    ∀ r i, (fetchGo cfg o url delay i r).result.toOption = none →
      (fetchGo cfg o url delay i r).urls.length = r := by
  intro r
  induction r with
  | zero => exact fun i _ => by simp [fetchGo]
  | succ r ih =>
    intro i hnone
    cases ho : attemptResult (o i) url with
    | ok b => rw [show (fetchGo cfg o url delay i (r+1)) = _ from rfl] at hnone; simp [fetchGo, ho, Except.toOption] at hnone
    | error m =>
      by_cases hr : r = 0
      · subst hr; simp [fetchGo, ho]
      · have h2 : (fetchGo cfg o url delay (i+1) r).result.toOption = none := by
          simp [fetchGo, ho, hr] at hnone
          exact hnone
        have := ih (i + 1) h2
        simp [fetchGo, ho, hr, this]

/-- Every attempt of a `fetchWithRetry` run fetches the same
statically-chosen URL. -/
theorem fetchGo_urls_all (cfg : FetchConfig) (o : Nat → FetchOutcome) (url : String)
    (delay : Nat) :
    ∀ r i, (fetchGo cfg o url delay i r).urls.all
      (fun u => u == fetchUrlFor cfg url) = true := by
  intro r
  induction r with
  | zero => exact fun i => by simp [fetchGo]
  | succ r ih =>
    intro i
    cases ho : attemptResult (o i) url with
    | ok b => simp [fetchGo, ho]
    | error m =>
      by_cases hr : r = 0
      · subst hr; simp [fetchGo, ho]
      · have := ih (i + 1)
        simp [fetchGo, ho, hr, this]

/-- The k-th backoff delay of a `fetchWithRetry` run is exactly
`delay * (k + 1)`. -/
theorem fetchWithRetry_delays_get (cfg : FetchConfig) (o : Nat → FetchOutcome)
    (url : String) (retries delay k : Nat)
    (h : k < (fetchWithRetry cfg o url retries delay).delays.length) :
    (fetchWithRetry cfg o url retries delay).delays.get ⟨k, h⟩ = delay * (k + 1) := by
  obtain ⟨n, hn⟩ := fetchGo_delays_shape cfg o url delay retries 0
  have hn' : (fetchWithRetry cfg o url retries delay).delays
      = (List.range' 1 n).map (fun a => delay * a) := hn
  revert h
  rw [hn']
  intro h
  simp only [List.get_eq_getElem, List.getElem_map, List.getElem_range']
  ring

/-- C6: `fetchWithRetry` retries up to the configured retry count; the
backoff delay slept after failed attempt `k + 1` is exactly `delay * (k + 1)`
(so it never exceeds `delay * retries`, the maximum over a run); a non-2xx
HTTP response is treated exactly like a network error — the run's attempt
URLs, backoff delays and returned value depend only on each attempt's
success/failure and successful body; and a failure is surfaced only after all
`retries` attempts have been performed. -/
theorem fetchWithRetry_retry_semantics (cfg : FetchConfig) (o1 o2 : Nat → FetchOutcome)
    (url : String) (retries delay : Nat)
    (hsame : ∀ i, (attemptResult (o1 i) url).toOption = (attemptResult (o2 i) url).toOption) :
    ((fetchWithRetry cfg o1 url retries delay).urls
        = (fetchWithRetry cfg o2 url retries delay).urls
      ∧ (fetchWithRetry cfg o1 url retries delay).delays
        = (fetchWithRetry cfg o2 url retries delay).delays
      ∧ (fetchWithRetry cfg o1 url retries delay).result.toOption
        = (fetchWithRetry cfg o2 url retries delay).result.toOption)
    ∧ (∀ status body msg, responseOk status = false →
        (attemptResult (FetchOutcome.response status body) url).toOption
          = (attemptResult (FetchOutcome.netError msg) url).toOption)
    ∧ (∀ k, ∀ h : k < (fetchWithRetry cfg o1 url retries delay).delays.length,
        (fetchWithRetry cfg o1 url retries delay).delays.get ⟨k, h⟩ = delay * (k + 1)
        ∧ (fetchWithRetry cfg o1 url retries delay).delays.get ⟨k, h⟩ ≤ delay * retries)
    ∧ ((fetchWithRetry cfg o1 url retries delay).result.toOption = none →
        (fetchWithRetry cfg o1 url retries delay).urls.length = retries)
    ∧ (fetchWithRetry cfg o1 url retries delay).urls.length ≤ retries := by
  refine ⟨fetchGo_congr cfg o1 o2 url delay hsame retries 0, ?_, ?_,
    fetchGo_error_urls cfg o1 url delay retries 0, fetchGo_urls_le cfg o1 url delay retries 0⟩
  · intro status body msg h
    simp [attemptResult, h, Except.toOption]
  · intro k h
    refine ⟨fetchWithRetry_delays_get cfg o1 url retries delay k h, ?_⟩
    rw [fetchWithRetry_delays_get cfg o1 url retries delay k h]
    have hl : (fetchWithRetry cfg o1 url retries delay).delays.length < retries
        ∨ (fetchWithRetry cfg o1 url retries delay).delays = [] :=
      fetchGo_delays_lt cfg o1 url delay retries 0
    rcases hl with hl | he
    · exact Nat.mul_le_mul (Nat.le_refl delay) (by omega)
    · rw [he] at h
      simp at h

/-- Witness for the C6 theorem at concrete inputs: a 503 response is retried
exactly like a network error. -/
theorem fetchWithRetry_retry_semantics_witness :
    (fetchWithRetry devConfig (fun _ => FetchOutcome.response 503 "Service Unavailable")
        "u" 2 1000).urls
      = (fetchWithRetry devConfig (fun _ => FetchOutcome.netError "ECONNRESET")
        "u" 2 1000).urls :=
  (fetchWithRetry_retry_semantics devConfig
      (fun _ => FetchOutcome.response 503 "Service Unavailable")
      (fun _ => FetchOutcome.netError "ECONNRESET") "u" 2 1000 (fun _ => rfl)).1.1

/-- C1 (code_bug): `fetchWithRetry` implements no tier ladder.  The route is
chosen statically from configuration (route.ts line 73): every attempt of a
run fetches the same URL; under the production configuration with a proxy
set, both attempts of an all-failing run — including the very first — are
routed through the intermediary, so no direct (Tier 1) attempt ever happens;
under the development configuration no attempt is ever routed, however often
Tier 1 fails; and no challenge-solving tier exists anywhere in the code. -/
theorem no_tier_escalation_in_fetchWithRetry :
    (∀ (cfg : FetchConfig) (oracle : Nat → FetchOutcome) (url : String) (retries delay : Nat),
      (fetchWithRetry cfg oracle url retries delay).urls.all
        (fun u => u == fetchUrlFor cfg url) = true)
    ∧ (fetchWithRetry prodConfig (fun _ => FetchOutcome.netError "ECONNRESET")
        amazonSearchUrlLaptop 2 1000).urls = [proxiedSearchUrl, proxiedSearchUrl]
    ∧ proxiedSearchUrl
        = "https://proxy.example.com/?url=https%3A%2F%2Fwww.amazon.in%2Fs%3Fk%3Dlaptop"
    ∧ proxiedSearchUrl ≠ amazonSearchUrlLaptop
    ∧ (fetchWithRetry devConfig (fun _ => FetchOutcome.netError "ECONNRESET")
        amazonSearchUrlLaptop 2 1000).urls = [amazonSearchUrlLaptop, amazonSearchUrlLaptop] :=
  ⟨fun cfg oracle url retries delay => fetchGo_urls_all cfg oracle url delay retries 0,
   by decide, by decide, by decide, by decide⟩

/-- Looking up a token in the empty map yields nothing. -/
theorem mapGet_nil (token : String) : mapGet [] token = none := rfl

/-- Looking up the only token of a one-entry map yields its window. -/
theorem mapGet_single (token : String) (w : List Int) :
    mapGet [(token, w)] token = some w := by
  simp [mapGet, List.find?_cons_of_pos]

/-- Setting a token in the empty map appends its entry. -/
theorem mapSet_nil (token : String) (v : List Int) : mapSet [] token v = [(token, v)] := by
  simp [mapSet, List.find?]

/-- Setting the only token of a one-entry map overwrites its window. -/
theorem mapSet_single (token : String) (w v : List Int) :
    mapSet [(token, w)] token v = [(token, v)] := by
  simp [mapSet, List.find?_cons_of_pos]

/-- On a one-token map, `check` acts exactly as the single-window step. -/
theorem rateLimitCheck_single (interval : Int) (u limit : Nat) (token : String)
    (w : List Int) (t : Int) :
    rateLimitCheck interval u [(token, w)] limit token t
      = { allowed := (checkOnce interval limit w t).1,
          state := [(token, (checkOnce interval limit w t).2)] } := by
  by_cases hc : limit ≤ (w.filter (fun x => decide (t - interval < x))).length
  · simp [rateLimitCheck, checkOnce, mapGet_single, hc]
  · simp [rateLimitCheck, checkOnce, mapGet_single, hc, mapSet_single]

/-- A single-token run of `check` calls coincides with the single-window run. -/
theorem runChecks_eq_runWindow (interval : Int) (u limit : Nat) (token : String) :
    ∀ (ts w : List Int),
      runChecks interval u limit token ts [(token, w)]
        = ((runWindow interval limit ts w).1,
           [(token, (runWindow interval limit ts w).2)]) := by
  intro ts
  induction ts with
  | nil => intro w; rfl
  | cons t rest ih =>
    intro w
    simp only [runChecks, runWindow, rateLimitCheck_single, ih]

/-- Admission pattern inside one window: while every timestamp (strictly)
survives pruning at every later call, the first admissions fill the window up
to the limit and every further call is rejected. -/
theorem runWindow_outcomes (interval : Int) (limit : Nat) :
    ∀ (ts w : List Int),
      (∀ t ∈ ts, ∀ x ∈ w, t - interval < x) →
      (∀ a ∈ ts, ∀ b ∈ ts, a - interval < b) →
      (runWindow interval limit ts w).1
        = (List.range ts.length).map (fun k => decide (w.length + k < limit)) := by
  intro ts
  induction ts with
  | nil => intro w _ _; rfl
  | cons t rest ih =>
    intro w hw hp
    have hfil : w.filter (fun x => decide (t - interval < x)) = w :=
      List.filter_eq_self.mpr (fun x hx => by
        simpa using hw t (List.mem_cons_self _ _) x hx)
    simp only [List.length_cons]
    rw [List.range_succ_eq_map, List.map_cons, List.map_map]
    by_cases hc : limit ≤ w.length
    · have hr : checkOnce interval limit w t = (false, w) := by
        simp [checkOnce, hfil, hc]
      have ihw := ih w (fun a ha x hx => hw a (List.mem_cons_of_mem _ ha) x hx)
        (fun a ha b hb => hp a (List.mem_cons_of_mem _ ha) b (List.mem_cons_of_mem _ hb))
      simp only [runWindow, hr, ihw]
      congr 1
      · rw [Nat.add_zero]
        symm
        rw [decide_eq_false_iff_not]
        omega
      · apply List.map_congr_left
        intro a _
        rw [Function.comp_apply, decide_eq_decide]
        omega
    · have hr : checkOnce interval limit w t = (true, w ++ [t]) := by
        simp [checkOnce, hfil, hc]
      have ihw := ih (w ++ [t])
        (fun a ha x hx => by
          rcases List.mem_append.mp hx with h | h
          · exact hw a (List.mem_cons_of_mem _ ha) x h
          · rw [List.mem_singleton.mp h]
            exact hp a (List.mem_cons_of_mem _ ha) t (List.mem_cons_self _ _))
        (fun a ha b hb => hp a (List.mem_cons_of_mem _ ha) b (List.mem_cons_of_mem _ hb))
      simp only [runWindow, hr, ihw]
      congr 1
      · rw [Nat.add_zero]
        symm
        rw [decide_eq_true_eq]
        omega
      · rw [List.length_append, List.length_singleton]
        apply List.map_congr_left
        intro a _
        rw [Function.comp_apply, decide_eq_decide]
        omega

/-- Every timestamp in the final window of a single-window run was one of the
initial timestamps or one of the call times. -/
theorem runWindow_final_mem (interval : Int) (limit : Nat) :
    ∀ (ts w : List Int), ∀ x ∈ (runWindow interval limit ts w).2, x ∈ w ∨ x ∈ ts := by
  intro ts
  induction ts with
  | nil => intro w x hx; exact Or.inl hx
  | cons t rest ih =>
    intro w x hx
    simp only [runWindow] at hx
    by_cases hc : limit ≤ (w.filter (fun y => decide (t - interval < y))).length
    · have hr : checkOnce interval limit w t = (false, w) := by simp [checkOnce, hc]
      rw [hr] at hx
      rcases ih w x hx with h | h
      · exact Or.inl h
      · exact Or.inr (List.mem_cons_of_mem _ h)
    · have hr : checkOnce interval limit w t
          = (true, (w.filter (fun y => decide (t - interval < y))) ++ [t]) := by
        simp [checkOnce, hc]
      rw [hr] at hx
      rcases ih _ x hx with h | h
      · rcases List.mem_append.mp h with h | h
        · exact Or.inl (List.mem_of_mem_filter h)
        · rw [List.mem_singleton.mp h]
          exact Or.inr (List.mem_cons_self _ _)
      · exact Or.inr (List.mem_cons_of_mem _ h)

/-- C4: per-call semantics and window behaviour of `rateLimit(...).check`.
On each call the working window is the stored window pruned to timestamps
strictly newer than `now - interval`; the call is allowed exactly when the
pruned count is below the limit, in which case `now` is appended to the
pruned window and stored (on rejection the map is left untouched, the throw
happening before `tokens.set`).  Consequently, for N calls all lying within
one window of a token with limit L, admissions 1..L are allowed and
admissions L+1..N are rejected, and a further admission after the window has
fully elapsed past every earlier call is allowed again. -/
theorem rateLimiter_check_semantics (interval : Int) (u limit : Nat) (token : String)
    (times : List Int) (T : Int)
    (hwin : ∀ a ∈ times, ∀ b ∈ times, a - interval < b)
    (hlim : 1 ≤ limit)
    (hT : ∀ t ∈ times, t + interval ≤ T) :
    (∀ (st : LimiterState) (now : Int),
      ((rateLimitCheck interval u st limit token now).allowed
        = decide ((((mapGet st token).getD []).filter
            (fun x => decide (now - interval < x))).length < limit))
      ∧ ((rateLimitCheck interval u st limit token now).allowed = false →
          (rateLimitCheck interval u st limit token now).state = st)
      ∧ ((rateLimitCheck interval u st limit token now).allowed = true →
          (rateLimitCheck interval u st limit token now).state
            = mapSet st token ((((mapGet st token).getD []).filter
                (fun x => decide (now - interval < x))) ++ [now])))
    ∧ (runChecks interval u limit token times []).1
        = (List.range times.length).map (fun k => decide (k < limit))
    ∧ (rateLimitCheck interval u (runChecks interval u limit token times []).2
        limit token T).allowed = true := by
  refine ⟨?_, ?_, ?_⟩
  · intro st now
    by_cases hc : limit ≤ (((mapGet st token).getD []).filter
        (fun x => decide (now - interval < x))).length
    · have hr : rateLimitCheck interval u st limit token now
          = { allowed := false, state := st } := by
        simp [rateLimitCheck, hc]
      rw [hr]
      refine ⟨?_, fun _ => rfl, fun hall => absurd hall (by simp)⟩
      symm
      rw [decide_eq_false_iff_not]
      omega
    · have hr : rateLimitCheck interval u st limit token now
          = { allowed := true,
              state := mapSet st token ((((mapGet st token).getD []).filter
                (fun x => decide (now - interval < x))) ++ [now]) } := by
        simp [rateLimitCheck, hc]
      rw [hr]
      refine ⟨?_, fun hf => absurd hf (by simp), fun _ => rfl⟩
      symm
      rw [decide_eq_true_eq]
      omega
  · cases times with
    | nil => rfl
    | cons t rest =>
      have hne : limit ≠ 0 := by omega
      have h1 : rateLimitCheck interval u [] limit token t
          = { allowed := true, state := [(token, [t])] } := by
        simp [rateLimitCheck, mapGet_nil, hne, mapSet_nil]
      have h2 := runChecks_eq_runWindow interval u limit token rest [t]
      have hout : (runWindow interval limit rest [t]).1
          = (List.range rest.length).map (fun k => decide (1 + k < limit)) := by
        have hres := runWindow_outcomes interval limit rest [t]
          (fun a ha x hx => by
            rw [List.mem_singleton.mp hx]
            exact hwin a (List.mem_cons_of_mem _ ha) t (List.mem_cons_self _ _))
          (fun a ha b hb => hwin a (List.mem_cons_of_mem _ ha) b (List.mem_cons_of_mem _ hb))
        simpa using hres
      simp only [runChecks, h1]
      rw [h2]
      simp only [hout, List.length_cons]
      rw [List.range_succ_eq_map, List.map_cons, List.map_map]
      congr 1
      · symm
        rw [decide_eq_true_eq]
        omega
      · apply List.map_congr_left
        intro a _
        rw [Function.comp_apply, decide_eq_decide]
        omega
  · cases times with
    | nil =>
      have hne : limit ≠ 0 := by omega
      simp [runChecks, rateLimitCheck, mapGet_nil, hne]
    | cons t rest =>
      have hne : limit ≠ 0 := by omega
      have h1 : rateLimitCheck interval u [] limit token t
          = { allowed := true, state := [(token, [t])] } := by
        simp [rateLimitCheck, mapGet_nil, hne, mapSet_nil]
      have h2 := runChecks_eq_runWindow interval u limit token rest [t]
      have hwf : (runChecks interval u limit token (t :: rest) []).2
          = [(token, (runWindow interval limit rest [t]).2)] := by
        simp only [runChecks, h1]
        rw [h2]
      rw [hwf, rateLimitCheck_single]
      have hfil : ((runWindow interval limit rest [t]).2).filter
          (fun x => decide (T - interval < x)) = [] := by
        rw [List.filter_eq_nil_iff]
        intro x hx
        have hmem := runWindow_final_mem interval limit rest [t] x hx
        have hxt : x ∈ (t :: rest) := by
          rcases hmem with h | h
          · rw [List.mem_singleton.mp h]
            exact List.mem_cons_self _ _
          · exact List.mem_cons_of_mem _ h
        have hTx := hT x hxt
        simp only [decide_eq_true_eq]
        omega
      have hne2 : limit ≠ 0 := by omega
      simp [checkOnce, hfil, hne2]

/-- Witness for the C4 theorem: six admissions at the same instant under the
handler's configuration (60 s window, limit 5) give five allows then a
reject, and an admission one full window later is allowed again. -/
theorem rateLimiter_check_semantics_witness :
    ((runChecks 60000 500 5 "CACHE_TOKEN" [0, 0, 0, 0, 0, 0] []).1
      = [true, true, true, true, true, false])
    ∧ (rateLimitCheck 60000 500 (runChecks 60000 500 5 "CACHE_TOKEN" [0, 0, 0, 0, 0, 0] []).2
        5 "CACHE_TOKEN" 60000).allowed = true := by
  have h := rateLimiter_check_semantics 60000 500 5 "CACHE_TOKEN" [0, 0, 0, 0, 0, 0] 60000
    (by decide) (by decide) (by decide)
  refine ⟨?_, h.2.2⟩
  rw [h.2.1]
  decide

/-- C10: the `uniqueTokenPerInterval` option is destructured by `rateLimit`
but never read: `check` behaves identically — outcome and stored state — for
any two values of it; moreover the map never evicts, so admitting a fresh
token always grows the stored map by one entry and the number of stored
tokens is unbounded by the option. -/
theorem uniqueTokenPerInterval_never_consulted :
    (∀ (interval : Int) (u1 u2 : Nat) (st : LimiterState) (limit : Nat)
        (token : String) (now : Int),
      rateLimitCheck interval u1 st limit token now
        = rateLimitCheck interval u2 st limit token now)
    ∧ (∀ (interval : Int) (u1 u2 limit : Nat) (token : String) (ts : List Int)
        (st : LimiterState),
      runChecks interval u1 limit token ts st = runChecks interval u2 limit token ts st)
    ∧ (∀ (interval : Int) (u : Nat) (st : LimiterState) (limit : Nat)
        (token : String) (now : Int),
      mapGet st token = none → 1 ≤ limit →
        (rateLimitCheck interval u st limit token now).state.length = st.length + 1)
    ∧ (∀ (interval : Int) (u : Nat) (st : LimiterState) (limit : Nat)
        (token : String) (now : Int),
      st.length ≤ (rateLimitCheck interval u st limit token now).state.length) := by
  refine ⟨fun _ _ _ _ _ _ _ => rfl, ?_, ?_, ?_⟩
  · intro interval u1 u2 limit token ts
    induction ts with
    | nil => intro st; rfl
    | cons t rest ih =>
      intro st
      simp only [runChecks]
      have hr : rateLimitCheck interval u1 st limit token t
          = rateLimitCheck interval u2 st limit token t := rfl
      rw [hr, ih]
  · intro interval u st limit token now hnone hlim
    have hfind : List.find? (fun p => p.1 == token) st = none := by
      have hm := hnone
      unfold mapGet at hm
      exact Option.map_eq_none'.mp hm
    have hw : (mapGet st token).getD [] = ([] : List Int) := by
      rw [hnone]
      rfl
    have hne : limit ≠ 0 := by omega
    have hr : rateLimitCheck interval u st limit token now
        = { allowed := true, state := mapSet st token [now] } := by
      simp [rateLimitCheck, hw, hne]
    rw [hr]
    simp only [mapSet, hfind, Option.isSome_none, Bool.false_eq_true, if_false]
    simp
  · intro interval u st limit token now
    simp only [rateLimitCheck]
    split
    · exact Nat.le_refl _
    · simp only [mapSet]
      split
      · simp
      · simp

/-- Witness for the C10 theorem: admitting a fresh token into the empty map
stores one entry. -/
theorem uniqueTokenPerInterval_never_consulted_witness :
    (rateLimitCheck 60000 500 [] 5 "CACHE_TOKEN" 0).state.length
      = ([] : LimiterState).length + 1 :=
  uniqueTokenPerInterval_never_consulted.2.2.1 60000 500 [] 5 "CACHE_TOKEN" 0 rfl
    (by decide)
